import Mathlib

set_option maxHeartbeats 1000000

/-!
Shallow embedding of the gh-verifier verification pipeline
(`src/fetch-proposal.ts`, `src/extract-build-steps.ts`, `scripts/build.sh`,
`src/format-commentary.ts` / the post-commentary script) and proofs of the
frozen claims about it.

Strings are modelled as `List Char`; the JavaScript regular expressions used
by the source are modelled by explicit, executable scanning functions with
the same leftmost-match semantics.
-/

-- ## Characters and JS regex primitives

/-- Model of the character class `[a-f0-9]` under the regex `i` flag:
an ASCII hex digit in either case. -/
def isHexDigitI (c : Char) : Bool :=
  (('0' ≤ c) && (c ≤ '9')) || (('a' ≤ c) && (c ≤ 'f')) || (('A' ≤ c) && (c ≤ 'F'))

/-- Model of the JS regex word character class `\w`, i.e. `[A-Za-z0-9_]`,
used by the word-boundary assertion `\b`. -/
def isWordChar (c : Char) : Bool := c.isAlphanum || c == '_'

/-- There is a run of `n` hex digits (either case) starting at index `i`. -/
def hexRunAt (s : List Char) (i n : Nat) : Bool :=
  decide (i + n ≤ s.length) &&
    (List.range n).all (fun k => isHexDigitI (s.getD (i + k) ' '))

/-- JS `\b` just before index `i`, given that the character at `i` is a word
character: holds when `i` is the start of the string or the previous
character is not a word character. -/
def boundaryBefore (s : List Char) (i : Nat) : Bool :=
  (i == 0) || !isWordChar (s.getD (i - 1) ' ')

/-- JS `\b` just after index `j - 1`, given that the character at `j - 1` is a
word character: holds when `j` is the end of the string or the character at
`j` is not a word character. -/
def boundaryAfter (s : List Char) (j : Nat) : Bool :=
  (j == s.length) || !isWordChar (s.getD j ' ')

/-- A match of `\b([a-f0-9]{n})\b` (with the `i` flag) starting at index `i`. -/
def hexTokenAt (s : List Char) (i n : Nat) : Bool :=
  hexRunAt s i n && boundaryBefore s i && boundaryAfter s (i + n)

/-- Embedding of `extractCommitHash` from `src/fetch-proposal.ts` (and its
identical copy in the unnamed fetch script): `text.match(/\b([a-f0-9]{40})\b/gi)`
returns all matches in text order and `match[0]`, the first (leftmost) matched
substring verbatim, is returned; `null` when there is no match. -/
def extractCommitHash (s : List Char) : Option (List Char) :=
  match (List.range s.length).find? (fun i => hexTokenAt s i 40) with
  | some i => some ((s.drop i).take 40)
  | none => none

/-- Case-insensitive literal word match at index `i` (regex `i` flag applied
to a literal alternative such as `wasm`). -/
def matchWordCI (s : List Char) (i : Nat) (w : List Char) : Bool :=
  decide (i + w.length ≤ s.length) &&
    (List.range w.length).all (fun k => (s.getD (i + k) ' ').toLower == w.getD k ' ')

/-- The label alternation `(?:wasm|module|sha256)` of the labelled hash regex
in `extractWasmHash`; returns the length of the alternative matching at `i`
(the alternatives start with distinct letters, so at most one matches). -/
def labelAt (s : List Char) (i : Nat) : Option Nat :=
  if matchWordCI s i ['w', 'a', 's', 'm'] then some 4
  else if matchWordCI s i ['m', 'o', 'd', 'u', 'l', 'e'] then some 6
  else if matchWordCI s i ['s', 'h', 'a', '2', '5', '6'] then some 6
  else none

/-- The lazy gap `[^\n]*?`: all `g` characters starting at index `a` are
not newlines. -/
def gapOk (s : List Char) (a g : Nat) : Bool :=
  (List.range g).all (fun k => !(s.getD (a + k) ' ' == '\n'))

/-- A match of `(?:wasm|module|sha256)[^\n]*?([a-f0-9]{64})` (with the `i`
flag) starting at index `i`: a label at `i`, then the shortest non-newline
gap after which 64 hex digits follow. Returns the start index of the capture
group (the 64 hex digits). -/
def labeledCaptureAt (s : List Char) (i : Nat) : Option Nat :=
  match labelAt s i with
  | some len =>
    match (List.range (s.length + 1)).find?
        (fun g => gapOk s (i + len) g && hexRunAt s (i + len + g) 64) with
    | some g => some (i + len + g)
    | none => none
  | none => none

/-- Embedding of `extractWasmHash` from `src/fetch-proposal.ts`: first
`exec` of the labelled regex `(?:wasm|module|sha256)[^\n]*?([a-f0-9]{64})/gi`
returning the capture group of the leftmost match; on no match, fall back to
`text.match(/\b([a-f0-9]{64})\b/gi)` and return the first matched substring;
`null` when neither matches. -/
def extractWasmHash (s : List Char) : Option (List Char) :=
  match (List.range s.length).find? (fun i => (labeledCaptureAt s i).isSome) with
  | some i =>
    match labeledCaptureAt s i with
    | some j => some ((s.drop j).take 64)
    | none => none
  | none =>
    match (List.range s.length).find? (fun i => hexTokenAt s i 64) with
    | some i => some ((s.drop i).take 64)
    | none => none

-- ## JavaScript values and JSON

/-- Model of the JavaScript values relevant to `src/extract-build-steps.ts`
(the possible results of `JSON.parse`). Strings are `List Char`; objects are
association lists in field order. -/
inductive Json where
  | null : Json
  | bool : Bool → Json
  | num : Int → Json
  | str : List Char → Json
  | arr : List Json → Json
  | obj : List (List Char × Json) → Json

/-- JS property access `v.k`: the field `k` of an object, `undefined`
(modelled as `none`) on a missing field or a non-object. -/
def Json.get : Json → List Char → Option Json
  | Json.obj fields, k => (fields.find? (fun p => p.1 == k)).map (fun p => p.2)
  | _, _ => none

/-- JS truthiness of a parsed JSON value, as used by
`parsed.wasmOutputPath || 'output.wasm'`. -/
def jsTruthy : Json → Bool
  | Json.null => false
  | Json.bool b => b
  | Json.num n => !(n == 0)
  | Json.str s => !s.isEmpty
  | Json.arr _ => true
  | Json.obj _ => true

-- ## Fence stripping (parseGeminiResponse, lines 69-74)

/-- JS whitespace characters stripped by `String.trim` (restricted to the
ASCII ones; the source never feeds non-ASCII whitespace). -/
def isJsWhitespace (c : Char) : Bool :=
  c == ' ' || c == '\n' || c == '\t' || c == '\r'

/-- Model of the JS `String.trim()` call on line 69. -/
def trimChars (s : List Char) : List Char :=
  ((s.dropWhile isJsWhitespace).reverse.dropWhile isJsWhitespace).reverse

/-- The backtick character (U+0060). -/
def backtick : Char := Char.ofNat 96

/-- Three backticks: a markdown code fence. -/
def fenceMark : List Char := [backtick, backtick, backtick]

/-- Model of `jsonStr.replace(/^"""(?:json)?\n?/, '')` (fence opener removal;
backticks written as double quotes in this comment): drops the three
backticks, then a literal `json` if present, then one newline if present.
Only called when the string starts with a fence. -/
def stripFenceOpen (s : List Char) : List Char :=
  let s1 := s.drop 3
  let s2 := if s1.take 4 = ['j', 's', 'o', 'n'] then s1.drop 4 else s1
  match s2 with
  | '\n' :: rest => rest
  | _ => s2

/-- Model of `.replace(/\n?"""$/, '')` (fence closer removal; backticks
written as double quotes in this comment): when the string ends with three
backticks, drop them and one directly preceding newline if present;
otherwise leave the string unchanged. -/
def stripFenceClose (s : List Char) : List Char :=
  if 3 ≤ s.length ∧ s.drop (s.length - 3) = fenceMark then
    match (s.take (s.length - 3)).getLast? with
    | some c =>
      if c == '\n' then (s.take (s.length - 3)).dropLast else s.take (s.length - 3)
    | none => s.take (s.length - 3)
  else s

/-- Lines 69-74 of `src/extract-build-steps.ts`: trim the response, and when
it starts with a markdown code fence remove the opening and closing fences. -/
def stripFences (s : List Char) : List Char :=
  let t := trimChars s
  if t.take 3 = fenceMark then stripFenceClose (stripFenceOpen t) else t

-- ## parseGeminiResponse (lines 67-91)

/-- The key `steps`. -/
def stepsKey : List Char := ['s', 't', 'e', 'p', 's']

/-- The key `wasmOutputPath`. -/
def wasmKey : List Char := "wasmOutputPath".toList

/-- The default output path `'output.wasm'` substituted on line 85. -/
def outputDefaultPath : List Char := "output.wasm".toList

/-- The result shape of `parseGeminiResponse`: the `steps` array is returned
as-is (no element validation in the source), `wasmOutputPath` is the supplied
value or the substituted default. -/
structure GeminiPlan where
  steps : List Json
  wasmOutputPath : Json

/-- Embedding of `parseGeminiResponse` from `src/extract-build-steps.ts`
(lines 67-91). `jsonParse` is the JavaScript `JSON.parse` builtin, an
external standard function, passed as a parameter; `none` models a thrown
`SyntaxError`. Both `throw` sites are modelled as `Except.error` (the JS
wrapper re-throws both with a `Failed to parse LLM response` prefix; the
distinct payloads record which site threw). -/
def parseGeminiResponse (jsonParse : List Char → Option Json) (response : List Char) :
    Except String GeminiPlan :=
  let jsonStr := stripFences response
  match jsonParse jsonStr with
  | none => Except.error "Failed to parse LLM response"
  | some parsed =>
    match Json.get parsed stepsKey with
    | some (Json.arr steps) =>
      Except.ok
        { steps := steps
          wasmOutputPath :=
            match Json.get parsed wasmKey with
            | some v => if jsTruthy v then v else Json.str outputDefaultPath
            | none => Json.str outputDefaultPath }
    | _ => Except.error "Invalid response: steps must be an array"

-- ## A concrete JSON.parse for witnesses

/-- Skip JSON insignificant whitespace. -/
def skipWs (s : List Char) : List Char := s.dropWhile isJsWhitespace

/-- Parse a JSON string body after the opening quote (no escape sequences;
the concrete inputs used below contain none, and JavaScript `JSON.parse`
agrees with this parser on all of them). Returns the content and the rest
after the closing quote. -/
def parseStrBody : List Char → Option (List Char × List Char)
  | [] => none
  | c :: rest =>
    if c == '"' then some ([], rest)
    else if c == '\\' then none
    else (parseStrBody rest).map (fun p => (c :: p.1, p.2))

mutual

/-- Parse one JSON value (string, array or object) with fuel. -/
def parseVal : Nat → List Char → Option (Json × List Char)
  | 0, _ => none
  | Nat.succ fuel, s =>
    match skipWs s with
    | '"' :: rest => (parseStrBody rest).map (fun p => (Json.str p.1, p.2))
    | '[' :: rest =>
      match skipWs rest with
      | ']' :: r2 => some (Json.arr [], r2)
      | _ => (parseItems fuel (skipWs rest)).map (fun p => (Json.arr p.1, p.2))
    | '{' :: rest =>
      match skipWs rest with
      | '}' :: r2 => some (Json.obj [], r2)
      | _ => (parseFields fuel (skipWs rest)).map (fun p => (Json.obj p.1, p.2))
    | _ => none

/-- Parse the comma-separated items of a non-empty JSON array, consuming the
closing bracket. -/
def parseItems : Nat → List Char → Option (List Json × List Char)
  | 0, _ => none
  | Nat.succ fuel, s =>
    match parseVal fuel s with
    | none => none
    | some (v, rest) =>
      match skipWs rest with
      | ',' :: r2 => (parseItems fuel r2).map (fun p => (v :: p.1, p.2))
      | ']' :: r2 => some ([v], r2)
      | _ => none

/-- Parse the comma-separated fields of a non-empty JSON object, consuming
the closing brace. -/
def parseFields : Nat → List Char → Option (List (List Char × Json) × List Char)
  | 0, _ => none
  | Nat.succ fuel, s =>
    match skipWs s with
    | '"' :: rest =>
      match parseStrBody rest with
      | none => none
      | some (key, r1) =>
        match skipWs r1 with
        | ':' :: r2 =>
          match parseVal fuel r2 with
          | none => none
          | some (v, r3) =>
            match skipWs r3 with
            | ',' :: r4 => (parseFields fuel r4).map (fun p => ((key, v) :: p.1, p.2))
            | '}' :: r4 => some ([(key, v)], r4)
            | _ => none
        | _ => none
    | _ => none

end

/-- Executable model of the JavaScript `JSON.parse` builtin, restricted to
the JSON fragment (strings, arrays, objects, no escapes) exercised by the
concrete witnesses in this file. On that fragment it agrees with
`JSON.parse`; everything outside the fragment is rejected, as `JSON.parse`
rejects every concrete non-JSON input used below. -/
def miniJsonParse (s : List Char) : Option Json :=
  match parseVal (s.length + 1) s with
  | some (v, rest) => if skipWs rest = [] then some v else none
  | none => none

-- ## Pipeline stages (fetch-proposal, extract-build-steps, build.sh)

/-- The `ProposalData` record written to `proposal.json` by
`src/fetch-proposal.ts` (the canister-id field of the unnamed variant is
omitted; no claim depends on it). -/
structure ProposalData where
  proposalId : List Char
  title : List Char
  summary : List Char
  url : List Char
  commitHash : Option (List Char)
  expectedWasmHash : Option (List Char)
deriving DecidableEq

/-- The reference-extraction core of `main` in `src/fetch-proposal.ts`
(lines 98-110): the combined text is `title + "\n" + summary + "\n" + url`,
and the two extractors are run over it. The record is written to
`proposal.json` whether or not the extractors succeed (only warnings are
printed on lines 116-122). -/
def fetchProposalMain (proposalId title summary url : List Char) : ProposalData :=
  let combined := title ++ '\n' :: summary ++ '\n' :: url
  { proposalId := proposalId, title := title, summary := summary, url := url
    commitHash := extractCommitHash combined
    expectedWasmHash := extractWasmHash combined }

/-- The `BuildSteps` record written to `build-steps.json` by
`src/extract-build-steps.ts`. As in `parseGeminiResponse`, the steps are
the raw parsed array. -/
structure BuildSteps where
  commitHash : List Char
  steps : List Json
  wasmOutputPath : Json

/-- Outcome of the `extract-build-steps.ts` process. `commitUnresolvable`
is the `process.exit(1)` on lines 103-106 (`No commit hash found in
proposal. Cannot proceed with build.`); `planMalformed` is the rethrown
`parseGeminiResponse` error (which also exits nonzero, via the final
`catch`). Only on `ok` is `build-steps.json` written. -/
inductive ExtractOutcome where
  | commitUnresolvable : ExtractOutcome
  | planMalformed : String → ExtractOutcome
  | ok : BuildSteps → ExtractOutcome

/-- Embedding of `main` in `src/extract-build-steps.ts` (lines 93-152).
The Gemini call is the external inference collaborator; the prompt built
from `EXTRACTION_PROMPT` and the proposal's title/summary/url is folded
into the collaborator boundary, so `gemini` receives the proposal record.
The returned `Bool` records whether `callGemini` was invoked. The guard on
lines 103-106 exits before the Gemini call when `commitHash` is null. -/
def extractBuildStepsMain (jsonParse : List Char → Option Json)
    (gemini : ProposalData → List Char) (p : ProposalData) :
    ExtractOutcome × Bool :=
  match p.commitHash with
  | none => (ExtractOutcome.commitUnresolvable, false)
  | some commit =>
    let response := gemini p
    match parseGeminiResponse jsonParse response with
    | Except.error e => (ExtractOutcome.planMalformed e, true)
    | Except.ok plan =>
      (ExtractOutcome.ok
        { commitHash := commit, steps := plan.steps
          wasmOutputPath := plan.wasmOutputPath }, true)

-- ## scripts/build.sh

/-- The environment the build script runs in: the effect of `eval`-ing a
step (its exit code), whether a file exists at the declared WASM output path
after the build, the `.wasm` files a recursive `find` would discover, and
whether the clone/fetch/checkout of the commit succeeds. -/
structure BuildEnv where
  exec : List Char → Nat
  fileExistsAtOutputPath : Bool
  wasmCandidates : List (List Char)
  cloneOk : Bool

/-- Terminal outcome of `scripts/build.sh`. Under `set -euo pipefail` every
listed failure aborts the script with a nonzero exit. -/
inductive BuildOutcome where
  | missingBuildSteps : BuildOutcome
  | missingProposal : BuildOutcome
  | cloneFailed : BuildOutcome
  | stepFailed : List Char → Nat → BuildOutcome
  | artifactNotFound : List (List Char) → BuildOutcome
  | success : List Char → BuildOutcome

/-- The step-execution loop of `scripts/build.sh` (lines 44-53): each
non-empty line of the steps is `eval`-ed in order; under `set -e` the first
nonzero exit aborts the script. Returns the list of steps actually
executed, in order, and the failing step with its exit code if any. -/
def runStepsLoop (exec : List Char → Nat) :
    List (List Char) → List (List Char) × Option (List Char × Nat)
  | [] => ([], none)
  | s :: rest =>
    if s.isEmpty then runStepsLoop exec rest
    else if exec s = 0 then
      ((s :: (runStepsLoop exec rest).1), (runStepsLoop exec rest).2)
    else ([s], some (s, exec s))

/-- Embedding of `scripts/build.sh`: require `build-steps.json` and
`proposal.json` (lines 7-15), clone and check out the commit (lines 24-38),
run the steps (lines 44-53), then check the declared output path; when the
file is absent, list up to 20 discovered `.wasm` files as a diagnostic
(`find . -name "*.wasm" | head -20`) and exit 1 without copying anything
(lines 61-69). Returns the outcome and the steps executed. -/
def buildScript (env : BuildEnv) (haveBuildSteps haveProposal : Bool)
    (steps : List (List Char)) (wasmOutputPath : List Char) :
    BuildOutcome × List (List Char) :=
  if !haveBuildSteps then (BuildOutcome.missingBuildSteps, [])
  else if !haveProposal then (BuildOutcome.missingProposal, [])
  else if !env.cloneOk then (BuildOutcome.cloneFailed, [])
  else
    match runStepsLoop env.exec steps with
    | (executed, some (s, code)) => (BuildOutcome.stepFailed s code, executed)
    | (executed, none) =>
      if env.fileExistsAtOutputPath then
        (BuildOutcome.success wasmOutputPath, executed)
      else
        (BuildOutcome.artifactNotFound (env.wasmCandidates.take 20), executed)

/-- The script's exit code for each outcome (`set -e` plus the explicit
`exit 1` sites). -/
def buildExitCode : BuildOutcome → Nat
  | BuildOutcome.success _ => 0
  | _ => 1

/-- The artifact the script copies to `output/canister.wasm`: the declared
path on success, nothing otherwise (no discovered candidate is ever
selected). -/
def buildOutput : BuildOutcome → Option (List Char)
  | BuildOutcome.success p => some p
  | _ => none

-- ## The composed pipeline

/-- Final outcome of one verification run up to the build stage. -/
inductive RunOutcome where
  | commitUnresolvable : RunOutcome
  | planMalformed : String → RunOutcome
  | buildResult : BuildOutcome → RunOutcome

/-- The string content of a JSON step as read back by `node` in
`build.sh` line 44 (the steps written by the extractor are strings). -/
def jsonToText : Json → List Char
  | Json.str s => s
  | _ => []

/-- One verification run: `fetch-proposal.ts`, then `extract-build-steps.ts`
(which reads `proposal.json` and, on success only, writes
`build-steps.json`), then `scripts/build.sh` (which exits early when
`build-steps.json` is missing — its own lines 7-10 — so it is modelled as
not running when extraction failed). Returns the outcome, whether the
Gemini inferrer was invoked, and whether the build executor ran. -/
def runPipeline (jsonParse : List Char → Option Json)
    (gemini : ProposalData → List Char) (env : BuildEnv)
    (proposalId title summary url : List Char) :
    RunOutcome × Bool × Bool :=
  let p := fetchProposalMain proposalId title summary url
  match extractBuildStepsMain jsonParse gemini p with
  | (ExtractOutcome.commitUnresolvable, g) => (RunOutcome.commitUnresolvable, g, false)
  | (ExtractOutcome.planMalformed e, g) => (RunOutcome.planMalformed e, g, false)
  | (ExtractOutcome.ok bs, g) =>
    (RunOutcome.buildResult
      (buildScript env true true (bs.steps.map jsonToText)
        (jsonToText bs.wasmOutputPath)).1, g, true)

-- ## post-commentary (unnamed part_000)

/-- One source reference of the commentary schema. -/
structure SourceRef where
  type : List Char
  url : Option (List Char)
  description : List Char
deriving DecidableEq

/-- One commit summary of the commentary schema. -/
structure CommitSummary where
  commit_hash : List Char
  summary : List Char
deriving DecidableEq

/-- One file summary of the commentary schema. -/
structure FileSummary where
  file_path : List Char
  summary : List Char
deriving DecidableEq

/-- The `CommentarySchema` interface of the post-commentary script. -/
structure CommentarySchema where
  title : List Char
  proposal_id : List Char
  canister_id : Option (List Char)
  commit_summaries : Option (List CommitSummary)
  file_summaries : Option (List FileSummary)
  overall_summary : List Char
  why_now : Option (List Char)
  sources : List SourceRef
  confidence_notes : Option (List Char)
  analysis_incomplete : Bool
  incomplete_reason : Option (List Char)
deriving DecidableEq

/-- The metadata block of the posted payload. The numeric fields are only
copied through, never computed with, so they are modelled as `Nat`. -/
structure CommentaryMetadata where
  cost_usd : Nat
  duration_ms : Nat
  turns : Nat
deriving DecidableEq

/-- The payload POSTed to the portal. -/
structure CommentaryPayload where
  commentary : CommentarySchema
  metadata : CommentaryMetadata
deriving DecidableEq

/-- What the post-commentary script does after parsing the Claude output:
skip with exit 0 when no commentary JSON was found (lines 127-131), or POST
the payload to `.../api/proposals/(proposalId)/commentary`. The second
component of `posted` is the proposal id interpolated into the URL. -/
inductive PostAction where
  | skip : PostAction
  | posted : CommentaryPayload → List Char → PostAction
deriving DecidableEq

/-- Embedding of the decision core of `postCommentary` (unnamed part_000,
lines 122-161): given the parsed commentary (if any) and stats, and the
command-line proposal id. On a proposal-id mismatch the script only warns
and overwrites `commentary.proposal_id` with the command-line value
(lines 133-138), then builds and posts the payload (lines 140-161). -/
def postCommentaryCore (parsed : Option CommentarySchema)
    (cost durationMs turns : Nat) (proposalId : List Char) : PostAction :=
  match parsed with
  | none => PostAction.skip
  | some commentary0 =>
    let commentary :=
      if commentary0.proposal_id ≠ proposalId then
        { commentary0 with proposal_id := proposalId }
      else commentary0
    PostAction.posted
      { commentary := commentary
        metadata := { cost_usd := cost, duration_ms := durationMs, turns := turns } }
      proposalId

-- ## Concrete inputs used by witnesses and counterexamples

/-- A response wrapped in a markdown fence around a JSON body: three
backticks, `json`, newline, the body, newline, three backticks. -/
def fencewrap (body : List Char) : List Char :=
  backtick :: backtick :: backtick :: 'j' :: 's' :: 'o' :: 'n' :: '\n' ::
    (body ++ '\n' :: fenceMark)

/-- An uppercase 40-hex-character token (hex digits are case-insensitive). -/
def upperTok : List Char := List.replicate 40 'A'

/-- A lowercase 40-hex-character token. -/
def lowTok : List Char := List.replicate 40 'e'

/-- A text with no 40-hex token. -/
def noTok : List Char := "xyz".toList

/-- Two distinct 40-hex tokens separated by a space. -/
def twoTok : List Char := List.replicate 40 'a' ++ ' ' :: List.replicate 40 'b'

/-- A 64-hex-character token. -/
def hex64c : List Char := List.replicate 64 'c'

/-- A text with a labelled 64-hex token: the label `wasm` at index 0, a
7-character gap, and the token at index 11. -/
def wasmLabeled : List Char := "wasm hash: ".toList ++ hex64c

/-- A bare 64-hex token with no label anywhere. -/
def bare64 : List Char := List.replicate 64 'd'

/-- A text with neither a label nor any 64-hex token. -/
def noHash : List Char := "hello".toList

/-- A syntactically valid bare JSON response whose `steps` array is empty. -/
def emptyStepsResp : List Char :=
  "\x7b\"steps\": [], \"wasmOutputPath\": \"o.wasm\"\x7d".toList

/-- A valid JSON response whose `steps` field is a string, not an array. -/
def stepsNotArrayResp : List Char := "\x7b\"steps\": \"make\"\x7d".toList

/-- A valid JSON response missing the `steps` key entirely. -/
def missingStepsResp : List Char := "\x7b\"wasmOutputPath\": \"o.wasm\"\x7d".toList

/-- A valid JSON response with a steps array but no `wasmOutputPath` key. -/
def noPathResp : List Char := "\x7b\"steps\": [\"make\"]\x7d".toList

/-- A response wrapped in a markdown code fence whose body is prose, not
JSON. -/
def fencedProseResp : List Char := fencewrap "this is prose".toList

/-- A well-shaped JSON body: one build step and an output path. -/
def goodBody : List Char :=
  "\x7b\"steps\": [\"make\"], \"wasmOutputPath\": \"a.wasm\"\x7d".toList

/-- The well-shaped body wrapped in a markdown code fence. -/
def fencedGoodResp : List Char := fencewrap goodBody

/-- A valid JSON response whose `wasmOutputPath` is the empty string (a
falsy JS value). -/
def emptyPathResp : List Char :=
  "\x7b\"steps\": [\"make\"], \"wasmOutputPath\": \"\"\x7d".toList

/-- A first build step that succeeds. -/
def stepA : List Char := "echo start".toList

/-- A build step that fails. -/
def stepBoom : List Char := "boom".toList

/-- A build step that would follow the failing one. -/
def stepC : List Char := "echo done".toList

/-- A step evaluator under which only `stepBoom` exits nonzero. -/
def execBoom : List Char → Nat := fun t => if t = stepBoom then 1 else 0

/-- A build environment where every step succeeds, the clone succeeds, but
no file exists at the declared output path; one stray `.wasm` file would be
discovered by the diagnostic search. -/
def envNoArtifact : BuildEnv :=
  { exec := fun _ => 0
    fileExistsAtOutputPath := false
    wasmCandidates := ["./found.wasm".toList]
    cloneOk := true }

/-- A concrete commentary document whose embedded proposal id is `123`. -/
def commentaryW : CommentarySchema :=
  { title := "t".toList
    proposal_id := "123".toList
    canister_id := none
    commit_summaries := none
    file_summaries := none
    overall_summary := "s".toList
    why_now := none
    sources := []
    confidence_notes := none
    analysis_incomplete := false
    incomplete_reason := none }

/-- A command-line proposal id differing from the embedded one. -/
def pidW : List Char := "456".toList

-- ## Helper lemmas: leftmost matches of the modelled regexes

/-- A `find?` over `List.range` returns the least index satisfying the
predicate. -/
theorem find?_range_eq_some (p : Nat → Bool) (n i : Nat) (hi : i < n)
    (hp : p i = true) (hmin : ∀ j, j < i → p j = false) :
    (List.range n).find? p = some i := by
  have hs : List.range' 0 i 1 ++ List.range' (0 + 1 * i) (n - i) 1 =
      List.range' 0 ((n - i) + i) 1 := List.range'_append 0 i (n - i) 1
  have hn : (n - i) + i = n := by omega
  rw [hn] at hs
  simp only [Nat.zero_add, Nat.one_mul] at hs
  rw [List.range_eq_range', ← hs, List.find?_append]
  have h1 : (List.range' 0 i 1).find? p = none := by
    rw [List.find?_eq_none]
    intro x hx
    have hm := List.mem_range'_1.mp hx
    simp [hmin x (by omega)]
  rw [h1]
  have h2 : n - i = (n - i - 1) + 1 := by omega
  rw [h2, List.range'_succ, List.find?_cons_of_pos _ hp]
  rfl

/-- A `find?` over `List.range` with an everywhere-false predicate is
`none`. -/
theorem find?_range_eq_none (p : Nat → Bool) (n : Nat) (h : ∀ j, p j = false) :
    (List.range n).find? p = none := by
  rw [List.find?_eq_none]
  intro x _
  simp [h x]

/-- A hex-token match at `i` of width `n` fits inside the string. -/
theorem hexTokenAt_le {s : List Char} {i n : Nat} (h : hexTokenAt s i n = true) :
    i + n ≤ s.length := by
  unfold hexTokenAt hexRunAt at h
  simp only [Bool.and_eq_true, decide_eq_true_eq] at h
  exact h.1.1.1

/-- No hex token of width `n` matches in a string shorter than `n`. -/
theorem hexTokenAt_false_of_short {s : List Char} {n : Nat} (i : Nat)
    (h : s.length < n) : hexTokenAt s i n = false := by
  cases hC : hexTokenAt s i n with
  | false => rfl
  | true => exfalso; have := hexTokenAt_le hC; omega

/-- A case-insensitive word match fits inside the string. -/
theorem matchWordCI_le {s w : List Char} {i : Nat} (h : matchWordCI s i w = true) :
    i + w.length ≤ s.length := by
  unfold matchWordCI at h
  simp only [Bool.and_eq_true, decide_eq_true_eq] at h
  exact h.1

/-- A label match at `i` implies at least four characters fit at `i`. -/
theorem labelAt_le {s : List Char} {i len : Nat} (h : labelAt s i = some len) :
    i + 4 ≤ s.length := by
  unfold labelAt at h
  split_ifs at h with h1 h2 h3
  · have := matchWordCI_le h1; simp at this; omega
  · have := matchWordCI_le h2; simp at this; omega
  · have := matchWordCI_le h3; simp at this; omega

/-- A labelled-capture match at `i` implies at least four characters fit. -/
theorem labeledCaptureAt_le {s : List Char} {i : Nat}
    (h : labeledCaptureAt s i ≠ none) : i + 4 ≤ s.length := by
  unfold labeledCaptureAt at h
  cases hl : labelAt s i with
  | none => rw [hl] at h; simp at h
  | some len => exact labelAt_le hl

/-- No labelled capture can start within three characters of the end. -/
theorem labeledCaptureAt_none_of_lt {s : List Char} (i : Nat)
    (h : s.length < i + 4) : labeledCaptureAt s i = none := by
  cases hC : labeledCaptureAt s i with
  | none => rfl
  | some j =>
    exfalso
    have : labeledCaptureAt s i ≠ none := by rw [hC]; simp
    have := labeledCaptureAt_le this
    omega

/-- Lift a bounded no-label check on a concrete string to all indices. -/
theorem no_label_all {s : List Char} (hb : ∀ i, i < s.length → labeledCaptureAt s i = none) :
    ∀ i, labeledCaptureAt s i = none := by
  intro i
  by_cases h : i < s.length
  · exact hb i h
  · exact labeledCaptureAt_none_of_lt i (by omega)

-- ## Claim C3

/-- C3, counterexample: the claim says the extracted token is normalized to
lowercase. The text consisting of exactly one 40-hex token written in
uppercase (`AAAA…A`) is matched — the regex is case-insensitive — but
`extractCommitHash` returns the token verbatim in uppercase, not the
lowercase normalization. -/
theorem C3_counterexample :
    hexTokenAt upperTok 0 40 = true ∧
    (∀ i, i ≠ 0 → hexTokenAt upperTok i 40 = false) ∧
    extractCommitHash upperTok = some upperTok ∧
    extractCommitHash upperTok ≠ some (upperTok.map Char.toLower) := by
  refine ⟨by decide, ?_, by decide, by decide⟩
  intro i hi
  cases hC : hexTokenAt upperTok i 40 with
  | false => rfl
  | true =>
    exfalso
    have h1 := hexTokenAt_le hC
    have hlen : upperTok.length = 40 := by decide
    rw [hlen] at h1
    exact hi (by omega)

/-- C3 amended: for a text whose first (hence, in particular, unique)
40-hex token starts at `i`, `extractCommitHash` returns that token exactly
as it appears (matched case-insensitively, case preserved, not lowercased);
for a text with no 40-hex token it returns `none`. -/
theorem C3_first_token_verbatim :
    (∀ (s : List Char) (i : Nat), hexTokenAt s i 40 = true →
        (∀ j, j < i → hexTokenAt s j 40 = false) →
        extractCommitHash s = some ((s.drop i).take 40)) ∧
    (∀ s : List Char, (∀ i, hexTokenAt s i 40 = false) →
        extractCommitHash s = none) := by
  constructor
  · intro s i hp hmin
    have hi : i < s.length := by have := hexTokenAt_le hp; omega
    unfold extractCommitHash
    rw [find?_range_eq_some _ _ i hi hp hmin]
  · intro s h
    unfold extractCommitHash
    rw [find?_range_eq_none _ _ h]

/-- C3 witness: the amended theorem applied to a concrete lowercase token
(returned verbatim) and to a concrete tokenless text (absent). -/
theorem C3_witness :
    extractCommitHash lowTok = some ((lowTok.drop 0).take 40) ∧
    extractCommitHash noTok = none :=
  ⟨C3_first_token_verbatim.1 lowTok 0 (by decide)
      (fun j hj => absurd hj (Nat.not_lt_zero j)),
    C3_first_token_verbatim.2 noTok
      (fun i => hexTokenAt_false_of_short i (by decide))⟩

-- ## Claim C8

/-- C8: for a text in which the first 40-hex token starts at `i` and at
least one further 40-hex token occurs later, `extractCommitHash`
deterministically returns the first occurrence. -/
theorem C8_first_occurrence_wins :
    ∀ (s : List Char) (i : Nat),
      hexTokenAt s i 40 = true →
      (∀ j, j < i → hexTokenAt s j 40 = false) →
      (∃ k, i < k ∧ hexTokenAt s k 40 = true) →
      extractCommitHash s = some ((s.drop i).take 40) := by
  intro s i hp hmin _
  have hi : i < s.length := by have := hexTokenAt_le hp; omega
  unfold extractCommitHash
  rw [find?_range_eq_some _ _ i hi hp hmin]

/-- C8 witness: the theorem applied to a text holding two distinct 40-hex
tokens; the first one (starting at index 0) is returned. -/
theorem C8_witness :
    extractCommitHash twoTok = some ((twoTok.drop 0).take 40) :=
  C8_first_occurrence_wins twoTok 0 (by decide)
    (fun j hj => absurd hj (Nat.not_lt_zero j))
    ⟨41, by decide, by decide⟩

-- ## Helper lemmas: fence stripping

/-- Trimming is the identity on a string whose first and last characters
are not whitespace. -/
theorem trimChars_eq_self {s : List Char}
    (h1 : ∀ c, s.head? = some c → isJsWhitespace c = false)
    (h2 : ∀ c, s.getLast? = some c → isJsWhitespace c = false) :
    trimChars s = s := by
  unfold trimChars
  have hd : s.dropWhile isJsWhitespace = s := by
    cases s with
    | nil => rfl
    | cons a t =>
      rw [List.dropWhile_cons, h1 a rfl]
      simp
  rw [hd]
  have hr : s.reverse.dropWhile isJsWhitespace = s.reverse := by
    cases hrev : s.reverse with
    | nil => rfl
    | cons a t =>
      rw [List.dropWhile_cons]
      have hla : s.getLast? = some a := by
        rw [← List.head?_reverse, hrev]; rfl
      rw [h2 a hla]
      simp
  rw [hr, List.reverse_reverse]

/-- A fence-wrapped body rewritten with its final backtick split off. -/
theorem fencewrap_eq_concat (body : List Char) :
    fencewrap body =
      (backtick :: backtick :: backtick :: 'j' :: 's' :: 'o' :: 'n' :: '\n' ::
        (body ++ ['\n', backtick, backtick])) ++ [backtick] := by
  simp [fencewrap, fenceMark]

/-- A fence-wrapped body ends with a backtick. -/
theorem fencewrap_getLast (body : List Char) :
    (fencewrap body).getLast? = some backtick := by
  rw [fencewrap_eq_concat]
  exact List.getLast?_concat _

/-- A fence-wrapped body is already trimmed (it starts and ends with a
backtick). -/
theorem trimChars_fencewrap (body : List Char) :
    trimChars (fencewrap body) = fencewrap body := by
  apply trimChars_eq_self
  · intro c hc
    have hh : (fencewrap body).head? = some backtick := rfl
    rw [hh] at hc
    cases hc
    decide
  · intro c hc
    rw [fencewrap_getLast] at hc
    cases hc
    decide

/-- Opening-fence removal on a fence-wrapped body leaves the body plus the
trailing newline and closing fence. -/
theorem stripFenceOpen_fencewrap (body : List Char) :
    stripFenceOpen (fencewrap body) = body ++ '\n' :: fenceMark := rfl

/-- Closing-fence removal recovers the bare body. -/
theorem stripFenceClose_concat (body : List Char) :
    stripFenceClose (body ++ '\n' :: fenceMark) = body := by
  have hlen : (body ++ '\n' :: fenceMark).length = body.length + 4 := by
    simp [fenceMark]
  have hdrop : (body ++ '\n' :: fenceMark).drop
      ((body ++ '\n' :: fenceMark).length - 3) = fenceMark := by
    rw [hlen]
    have h1 : body.length + 4 - 3 = body.length + 1 := by omega
    rw [h1, List.drop_append_eq_append_drop, List.drop_eq_nil_of_le (by omega)]
    have h2 : body.length + 1 - body.length = 1 := by omega
    rw [h2]
    rfl
  have htake : (body ++ '\n' :: fenceMark).take
      ((body ++ '\n' :: fenceMark).length - 3) = body ++ ['\n'] := by
    rw [hlen]
    have h1 : body.length + 4 - 3 = body.length + 1 := by omega
    rw [h1, List.take_append_eq_append_take, List.take_of_length_le (by omega)]
    have h2 : body.length + 1 - body.length = 1 := by omega
    rw [h2]
    rfl
  unfold stripFenceClose
  rw [if_pos ⟨by rw [hlen]; omega, hdrop⟩, htake, List.getLast?_concat]
  simp [List.dropLast_concat]

/-- Fence stripping is exactly inverse to fence wrapping: a response wrapped
in a markdown code fence is reduced to its bare body before JSON parsing. -/
theorem stripFences_fencewrap (body : List Char) :
    stripFences (fencewrap body) = body := by
  simp only [stripFences]
  rw [trimChars_fencewrap]
  have ht3 : (fencewrap body).take 3 = fenceMark := rfl
  rw [if_pos ht3, stripFenceOpen_fencewrap, stripFenceClose_concat]

-- ## Claim C9

/-- C9: `extractWasmHash` first returns the capture of the leftmost match of
the labelled regex (a 64-hex run following a `wasm`/`module`/`sha256` label
on the same line); when no labelled match exists anywhere, it falls back to
the first bare 64-hex token; when neither exists it returns `none`. -/
theorem C9_labeled_then_fallback :
    (∀ (s : List Char) (i cap : Nat),
        labeledCaptureAt s i = some cap →
        (∀ j, j < i → labeledCaptureAt s j = none) →
        extractWasmHash s = some ((s.drop cap).take 64)) ∧
    (∀ s : List Char, (∀ i, labeledCaptureAt s i = none) →
        ((∀ (k : Nat), hexTokenAt s k 64 = true →
            (∀ j, j < k → hexTokenAt s j 64 = false) →
            extractWasmHash s = some ((s.drop k).take 64)) ∧
          ((∀ k, hexTokenAt s k 64 = false) → extractWasmHash s = none))) := by
  constructor
  · intro s i cap h hmin
    have hne : labeledCaptureAt s i ≠ none := by rw [h]; simp
    have hi : i < s.length := by have := labeledCaptureAt_le hne; omega
    have hp : (labeledCaptureAt s i).isSome = true := by rw [h]; rfl
    have hmin' : ∀ j, j < i → (labeledCaptureAt s j).isSome = false := by
      intro j hj; rw [hmin j hj]; rfl
    unfold extractWasmHash
    rw [find?_range_eq_some _ _ i hi hp hmin']
    show (match labeledCaptureAt s i with
      | some j => some (List.take 64 (List.drop j s))
      | none => none) = some (List.take 64 (List.drop cap s))
    rw [h]
  · intro s hall
    have hnone : (List.range s.length).find?
        (fun i => (labeledCaptureAt s i).isSome) = none := by
      apply find?_range_eq_none
      intro j; rw [hall j]; rfl
    constructor
    · intro k hk hmin
      have hik : k < s.length := by have := hexTokenAt_le hk; omega
      unfold extractWasmHash
      rw [hnone]
      show (match List.find? (fun i => hexTokenAt s i 64) (List.range s.length) with
        | some i => some (List.take 64 (List.drop i s))
        | none => none) = some (List.take 64 (List.drop k s))
      rw [find?_range_eq_some _ _ k hik hk hmin]
    · intro hno
      unfold extractWasmHash
      rw [hnone]
      show (match List.find? (fun i => hexTokenAt s i 64) (List.range s.length) with
        | some i => some (List.take 64 (List.drop i s))
        | none => none) = none
      rw [find?_range_eq_none _ _ hno]

/-- C9 witness: the theorem applied to a labelled text (capture at index 11
returned), a bare 64-hex token with no label (fallback returns it), and a
text with neither (absent). -/
theorem C9_witness :
    extractWasmHash wasmLabeled = some ((wasmLabeled.drop 11).take 64) ∧
    extractWasmHash bare64 = some ((bare64.drop 0).take 64) ∧
    extractWasmHash noHash = none := by
  refine ⟨?_, ?_, ?_⟩
  · exact C9_labeled_then_fallback.1 wasmLabeled 0 11 (by decide)
      (fun j hj => absurd hj (Nat.not_lt_zero j))
  · exact (C9_labeled_then_fallback.2 bare64 (no_label_all (by decide))).1 0
      (by decide) (fun j hj => absurd hj (Nat.not_lt_zero j))
  · exact (C9_labeled_then_fallback.2 noHash (no_label_all (by decide))).2
      (fun k => hexTokenAt_false_of_short k (by decide))

-- ## Claim C1

/-- C1, counterexample: the claim says an empty `steps` array is one of the
malformed inputs `parseGeminiResponse` rejects. It is not: the response
whose `steps` is the empty array parses as valid JSON, passes the
`Array.isArray` check, and is returned as an empty-but-successful plan. -/
theorem C1_counterexample :
    miniJsonParse (stripFences emptyStepsResp) =
      some (Json.obj [(stepsKey, Json.arr []),
        (wasmKey, Json.str "o.wasm".toList)]) ∧
    parseGeminiResponse miniJsonParse emptyStepsResp =
      Except.ok { steps := [], wasmOutputPath := Json.str "o.wasm".toList } :=
  ⟨rfl, rfl⟩

/-- C1 amended: `parseGeminiResponse` hard-fails when the `steps` field is
not an array, when the (fence-stripped) response is not valid JSON, and when
valid JSON lacks the `steps` key; but any response whose `steps` parses as an
array — including the empty array — is accepted, so an empty steps array is
coerced into an empty-but-successful plan rather than rejected. -/
theorem C1_malformed_inputs :
    (∀ (jsonParse : List Char → Option Json) (r : List Char) (v : Json)
        (steps : List Json),
        jsonParse (stripFences r) = some v →
        Json.get v stepsKey = some (Json.arr steps) →
        ∃ w, parseGeminiResponse jsonParse r =
          Except.ok { steps := steps, wasmOutputPath := w }) ∧
    (∀ (jsonParse : List Char → Option Json) (r : List Char) (v w : Json),
        jsonParse (stripFences r) = some v →
        Json.get v stepsKey = some w →
        (∀ l, w ≠ Json.arr l) →
        parseGeminiResponse jsonParse r =
          Except.error "Invalid response: steps must be an array") ∧
    (∀ (jsonParse : List Char → Option Json) (r : List Char),
        jsonParse (stripFences r) = none →
        parseGeminiResponse jsonParse r =
          Except.error "Failed to parse LLM response") ∧
    (∀ (jsonParse : List Char → Option Json) (r : List Char) (v : Json),
        jsonParse (stripFences r) = some v →
        Json.get v stepsKey = none →
        parseGeminiResponse jsonParse r =
          Except.error "Invalid response: steps must be an array") := by
  refine ⟨?_, ?_, ?_, ?_⟩
  · intro jsonParse r v steps h1 h2
    simp only [parseGeminiResponse, h1, h2]
    exact ⟨_, rfl⟩
  · intro jsonParse r v w h1 h2 hw
    simp only [parseGeminiResponse, h1, h2]
    cases w with
    | arr l => exact absurd rfl (hw l)
    | null => rfl
    | bool b => rfl
    | num n => rfl
    | str s => rfl
    | obj f => rfl
  · intro jsonParse r h
    simp only [parseGeminiResponse, h]
  · intro jsonParse r v h1 h2
    simp only [parseGeminiResponse, h1, h2]

/-- C1 witness: the amended theorem applied to the four concrete inputs:
the empty-steps response is accepted; the string-steps, fenced-prose and
missing-steps responses each hard-fail. -/
theorem C1_witness :
    (∃ w, parseGeminiResponse miniJsonParse emptyStepsResp =
        Except.ok { steps := [], wasmOutputPath := w }) ∧
    parseGeminiResponse miniJsonParse stepsNotArrayResp =
      Except.error "Invalid response: steps must be an array" ∧
    parseGeminiResponse miniJsonParse fencedProseResp =
      Except.error "Failed to parse LLM response" ∧
    parseGeminiResponse miniJsonParse missingStepsResp =
      Except.error "Invalid response: steps must be an array" :=
  ⟨C1_malformed_inputs.1 miniJsonParse emptyStepsResp
      (Json.obj [(stepsKey, Json.arr []), (wasmKey, Json.str "o.wasm".toList)])
      [] rfl rfl,
    C1_malformed_inputs.2.1 miniJsonParse stepsNotArrayResp
      (Json.obj [(stepsKey, Json.str "make".toList)]) (Json.str "make".toList)
      rfl rfl (fun _ h => Json.noConfusion h),
    C1_malformed_inputs.2.2.1 miniJsonParse fencedProseResp rfl,
    C1_malformed_inputs.2.2.2 miniJsonParse missingStepsResp
      (Json.obj [(wasmKey, Json.str "o.wasm".toList)]) rfl rfl⟩

-- ## Claim C2

/-- C2, counterexample: the claim says the declared output path is never a
fabricated default when `wasmOutputPath` is missing. The response with a
steps array but no `wasmOutputPath` key is accepted with the substituted
default path `output.wasm` (line 85 of the source). -/
theorem C2_counterexample :
    Json.get (Json.obj [(stepsKey, Json.arr [Json.str "make".toList])])
      wasmKey = none ∧
    miniJsonParse (stripFences noPathResp) =
      some (Json.obj [(stepsKey, Json.arr [Json.str "make".toList])]) ∧
    parseGeminiResponse miniJsonParse noPathResp =
      Except.ok ⟨[Json.str "make".toList], Json.str outputDefaultPath⟩ :=
  ⟨rfl, rfl, rfl⟩

/-- C2 amended: for an accepted response, the declared output path is the
supplied `wasmOutputPath` value exactly when that value is present and
truthy; when the field is missing — or falsy, such as the empty string —
the default `output.wasm` is substituted and the run continues. -/
theorem C2_output_path_default :
    (∀ (jsonParse : List Char → Option Json) (r : List Char)
        (fields : List (List Char × Json)) (steps : List Json) (w : Json),
        jsonParse (stripFences r) = some (Json.obj fields) →
        Json.get (Json.obj fields) stepsKey = some (Json.arr steps) →
        Json.get (Json.obj fields) wasmKey = some w →
        jsTruthy w = true →
        parseGeminiResponse jsonParse r =
          Except.ok { steps := steps, wasmOutputPath := w }) ∧
    (∀ (jsonParse : List Char → Option Json) (r : List Char)
        (fields : List (List Char × Json)) (steps : List Json),
        jsonParse (stripFences r) = some (Json.obj fields) →
        Json.get (Json.obj fields) stepsKey = some (Json.arr steps) →
        Json.get (Json.obj fields) wasmKey = none →
        parseGeminiResponse jsonParse r =
          Except.ok ⟨steps, Json.str outputDefaultPath⟩) ∧
    (∀ (jsonParse : List Char → Option Json) (r : List Char)
        (fields : List (List Char × Json)) (steps : List Json) (w : Json),
        jsonParse (stripFences r) = some (Json.obj fields) →
        Json.get (Json.obj fields) stepsKey = some (Json.arr steps) →
        Json.get (Json.obj fields) wasmKey = some w →
        jsTruthy w = false →
        parseGeminiResponse jsonParse r =
          Except.ok ⟨steps, Json.str outputDefaultPath⟩) := by
  refine ⟨?_, ?_, ?_⟩
  · intro jsonParse r fields steps w h1 h2 h3 h4
    simp only [parseGeminiResponse, h1, h2, h3, h4, if_true]
  · intro jsonParse r fields steps h1 h2 h3
    simp only [parseGeminiResponse, h1, h2, h3]
  · intro jsonParse r fields steps w h1 h2 h3 h4
    simp only [parseGeminiResponse, h1, h2, h3, h4]
    simp

/-- C2 witness: the amended theorem applied to a response with a truthy
path (used verbatim), one with the key missing (default substituted) and
one with an empty-string path (default substituted). -/
theorem C2_witness :
    parseGeminiResponse miniJsonParse goodBody =
      Except.ok ⟨[Json.str "make".toList], Json.str "a.wasm".toList⟩ ∧
    parseGeminiResponse miniJsonParse noPathResp =
      Except.ok ⟨[Json.str "make".toList], Json.str outputDefaultPath⟩ ∧
    parseGeminiResponse miniJsonParse emptyPathResp =
      Except.ok ⟨[Json.str "make".toList], Json.str outputDefaultPath⟩ :=
  ⟨C2_output_path_default.1 miniJsonParse goodBody
      [(stepsKey, Json.arr [Json.str "make".toList]),
        (wasmKey, Json.str "a.wasm".toList)]
      [Json.str "make".toList] (Json.str "a.wasm".toList) rfl rfl rfl rfl,
    C2_output_path_default.2.1 miniJsonParse noPathResp
      [(stepsKey, Json.arr [Json.str "make".toList])]
      [Json.str "make".toList] rfl rfl rfl,
    C2_output_path_default.2.2 miniJsonParse emptyPathResp
      [(stepsKey, Json.arr [Json.str "make".toList]), (wasmKey, Json.str [])]
      [Json.str "make".toList] (Json.str []) rfl rfl rfl rfl⟩

-- ## Claim C4

/-- C4, counterexample: the claim says a response wrapped in markdown code
fencing is never accepted as a valid plan. A fenced response around a
well-shaped JSON body is accepted: the fences are stripped on lines 72-74
and the body parsed. -/
theorem C4_counterexample :
    fencedGoodResp.take 3 = fenceMark ∧
    parseGeminiResponse miniJsonParse fencedGoodResp =
      Except.ok ⟨[Json.str "make".toList], Json.str "a.wasm".toList⟩ :=
  ⟨rfl, rfl⟩

/-- C4 amended: markdown code fencing is stripped, not rejected — a fenced
response whose body is valid JSON with an array `steps` is accepted; a hard
failure occurs only when the response after fence stripping is not valid
JSON (the `steps`-shape failures are covered by the C1 theorem). -/
theorem C4_fencing_stripped :
    (∀ (jsonParse : List Char → Option Json) (body : List Char)
        (fields : List (List Char × Json)) (steps : List Json),
        jsonParse body = some (Json.obj fields) →
        Json.get (Json.obj fields) stepsKey = some (Json.arr steps) →
        (fencewrap body).take 3 = fenceMark ∧
        ∃ w, parseGeminiResponse jsonParse (fencewrap body) =
          Except.ok { steps := steps, wasmOutputPath := w }) ∧
    (∀ (jsonParse : List Char → Option Json) (r : List Char),
        jsonParse (stripFences r) = none →
        parseGeminiResponse jsonParse r =
          Except.error "Failed to parse LLM response") := by
  constructor
  · intro jsonParse body fields steps h1 h2
    refine ⟨rfl, ?_⟩
    simp only [parseGeminiResponse, stripFences_fencewrap, h1, h2]
    exact ⟨_, rfl⟩
  · intro jsonParse r h
    simp only [parseGeminiResponse, h]

/-- C4 witness: the amended theorem applied to the fence-wrapped well-shaped
body (accepted) and to a fence-wrapped prose body (hard failure). -/
theorem C4_witness :
    (∃ w, parseGeminiResponse miniJsonParse (fencewrap goodBody) =
        Except.ok { steps := [Json.str "make".toList], wasmOutputPath := w }) ∧
    parseGeminiResponse miniJsonParse fencedProseResp =
      Except.error "Failed to parse LLM response" :=
  ⟨(C4_fencing_stripped.1 miniJsonParse goodBody
      [(stepsKey, Json.arr [Json.str "make".toList]),
        (wasmKey, Json.str "a.wasm".toList)]
      [Json.str "make".toList] rfl rfl).2,
    C4_fencing_stripped.2 miniJsonParse fencedProseResp rfl⟩

-- ## Claim C5

/-- C5: when the combined proposal text (title, summary and url joined with
newlines) contains no 40-hex token — and the fetch script only ever takes
the commit from this regex scan, so there is no structured commit source —
the run terminates as commit-unresolvable: the extract stage exits before
calling the inferrer, so the Gemini collaborator is never invoked, and the
build executor never runs. -/
theorem C5_commit_unresolvable_short_circuits :
    ∀ (jsonParse : List Char → Option Json) (gemini : ProposalData → List Char)
      (env : BuildEnv) (pid t s u : List Char),
      extractCommitHash (t ++ '\n' :: s ++ '\n' :: u) = none →
      runPipeline jsonParse gemini env pid t s u =
        (RunOutcome.commitUnresolvable, false, false) := by
  intro jsonParse gemini env pid t s u h
  simp only [runPipeline, fetchProposalMain, extractBuildStepsMain, h]

/-- C5 witness: a run on a proposal whose text contains no hex token at all
terminates commit-unresolvable with neither collaborator invoked. -/
theorem C5_witness :
    runPipeline miniJsonParse (fun _ => []) envNoArtifact [] [] [] [] =
      (RunOutcome.commitUnresolvable, false, false) :=
  C5_commit_unresolvable_short_circuits miniJsonParse (fun _ => [])
    envNoArtifact [] [] [] [] rfl

-- ## Claim C6

/-- Helper: when every non-empty step succeeds, the loop executes exactly
the non-empty steps in order and reports no failure. -/
theorem runStepsLoop_all_ok (exec : List Char → Nat) (steps : List (List Char))
    (h : ∀ t ∈ steps, t.isEmpty = false → exec t = 0) :
    runStepsLoop exec steps = (steps.filter (fun t => !t.isEmpty), none) := by
  induction steps with
  | nil => rfl
  | cons a t ih =>
    have ih' := ih (fun x hx hne => h x (List.mem_cons_of_mem a hx) hne)
    cases hae : a.isEmpty with
    | true => simp [runStepsLoop, hae, ih', List.filter_cons]
    | false =>
      have ha0 : exec a = 0 := h a (List.mem_cons_self a t) hae
      simp [runStepsLoop, hae, ha0, ih', List.filter_cons]

/-- C6: the build script executes the plan's commands strictly in order;
when a command exits nonzero, execution halts there — the executed trace is
exactly the preceding (non-empty) commands plus the failing one, and no
command after the failing one is attempted, whatever follows it. -/
theorem C6_halt_on_failure :
    ∀ (exec : List Char → Nat) (pre post : List (List Char)) (s : List Char),
      (∀ t ∈ pre, t.isEmpty = false → exec t = 0) →
      s.isEmpty = false → exec s ≠ 0 →
      runStepsLoop exec (pre ++ s :: post) =
        (pre.filter (fun t => !t.isEmpty) ++ [s], some (s, exec s)) := by
  intro exec pre post s hpre hs hfail
  induction pre with
  | nil => simp [runStepsLoop, hs, hfail]
  | cons a t ih =>
    have ih' := ih (fun x hx hne => hpre x (List.mem_cons_of_mem a hx) hne)
    cases hae : a.isEmpty with
    | true => simp [runStepsLoop, hae, ih', List.filter_cons]
    | false =>
      have ha0 : exec a = 0 := hpre a (List.mem_cons_self a t) hae
      simp [runStepsLoop, hae, ha0, ih', List.filter_cons]

/-- C6 witness: with a three-step plan whose middle step fails, exactly the
first two steps run, the failure carries the failing step and its exit
code, and the third step is never attempted. -/
theorem C6_witness :
    runStepsLoop execBoom ([stepA] ++ stepBoom :: [stepC]) =
      ([stepA].filter (fun t => !t.isEmpty) ++ [stepBoom],
        some (stepBoom, execBoom stepBoom)) :=
  C6_halt_on_failure execBoom [stepA] [stepC] stepBoom
    (by decide) (by decide) (by decide)

-- ## Claim C7

/-- C7: when the build completes but no file exists at the plan's declared
output path, the script reports artifact-not-found carrying at most 20
discovered `.wasm` candidates as a diagnostic, exits nonzero, and selects
no candidate as the output. -/
theorem C7_artifact_not_found :
    ∀ (env : BuildEnv) (steps : List (List Char)) (outPath : List Char),
      (∀ t ∈ steps, t.isEmpty = false → env.exec t = 0) →
      env.cloneOk = true →
      env.fileExistsAtOutputPath = false →
      (buildScript env true true steps outPath).1 =
          BuildOutcome.artifactNotFound (env.wasmCandidates.take 20) ∧
      buildExitCode (buildScript env true true steps outPath).1 = 1 ∧
      buildOutput (buildScript env true true steps outPath).1 = none := by
  intro env steps outPath hsteps hclone hfile
  have hrun := runStepsLoop_all_ok env.exec steps hsteps
  refine ⟨?_, ?_, ?_⟩ <;>
    simp [buildScript, hclone, hfile, hrun, buildExitCode, buildOutput]

/-- C7 witness: a one-step build that succeeds but leaves nothing at the
declared path reports the discovered candidate as a diagnostic, exits 1,
and produces no output artifact. -/
theorem C7_witness :
    (buildScript envNoArtifact true true [stepA] "a.wasm".toList).1 =
        BuildOutcome.artifactNotFound (envNoArtifact.wasmCandidates.take 20) ∧
    buildExitCode (buildScript envNoArtifact true true [stepA] "a.wasm".toList).1 = 1 ∧
    buildOutput (buildScript envNoArtifact true true [stepA] "a.wasm".toList).1 = none :=
  C7_artifact_not_found envNoArtifact [stepA] "a.wasm".toList
    (by decide) rfl rfl

-- ## Claim C10

/-- C10: when the commentary document's embedded proposal id differs from
the command-line one, the post-commentary script does not fail: it
overwrites the embedded id with the command-line value and posts the
payload, so the posted payload's proposal id equals the command-line
argument. -/
theorem C10_proposal_id_overwritten :
    ∀ (c : CommentarySchema) (cost durationMs turns : Nat) (pid : List Char),
      c.proposal_id ≠ pid →
      postCommentaryCore (some c) cost durationMs turns pid =
          PostAction.posted
            { commentary := { c with proposal_id := pid }
              metadata :=
                { cost_usd := cost, duration_ms := durationMs, turns := turns } }
            pid ∧
        ({ c with proposal_id := pid } : CommentarySchema).proposal_id = pid := by
  intro c cost dm tn pid h
  constructor
  · simp [postCommentaryCore, h]
  · rfl

/-- C10 witness: the theorem applied to a concrete commentary whose embedded
id `123` differs from the command-line id `456`; the payload is posted with
proposal id `456`. -/
theorem C10_witness :
    postCommentaryCore (some commentaryW) 1 2 3 pidW =
        PostAction.posted
          { commentary := { commentaryW with proposal_id := pidW }
            metadata := { cost_usd := 1, duration_ms := 2, turns := 3 } }
          pidW ∧
      ({ commentaryW with proposal_id := pidW } : CommentarySchema).proposal_id = pidW :=
  C10_proposal_id_overwritten commentaryW 1 2 3 pidW (by decide)
